import Mathlib

/-!
Shallow embedding of the cft-leveldb core (src/encoding.rs, src/wal.rs,
src/mem_table.rs, src/db.rs, src/sorted_stable.rs).

Bytes are modelled as `List Nat` whose elements are < 256 for data produced by
the code itself; machine-integer wrap-around is made explicit with `% 2 ^ 32`
(resp `% 2 ^ 64`, `% 65536`) at the places where the Rust code works on
`u32` / `u64` / `u16` values.
-/

/-! ## encoding.rs -/

/-- `const B: u8 = 1 << 7;` -/
def B : Nat := 128

/-- `UxExt::lowest_u8`: `self.to_le_bytes()[0]`. -/
def lowest_u8 (n : Nat) : Nat := n % 256

/-- `BufMutExt::put_var_u32_le` (the five-way `match` on `n`).  The argument
is a `u32`, i.e. callers pass `n < 2 ^ 32`. -/
def put_var_u32_le (n : Nat) : List Nat :=
  if n < 2 ^ 7 then
    [lowest_u8 n]
  else if n < 2 ^ 14 then
    [lowest_u8 n ||| B, lowest_u8 (n >>> 7)]
  else if n < 2 ^ 21 then
    [lowest_u8 n ||| B, lowest_u8 (n >>> 7) ||| B, lowest_u8 (n >>> 14)]
  else if n < 2 ^ 28 then
    [lowest_u8 n ||| B, lowest_u8 (n >>> 7) ||| B, lowest_u8 (n >>> 14) ||| B,
      lowest_u8 (n >>> 21)]
  else
    [lowest_u8 n ||| B, lowest_u8 (n >>> 7) ||| B, lowest_u8 (n >>> 14) ||| B,
      lowest_u8 (n >>> 21) ||| B, lowest_u8 (n >>> 28)]

/-- `BufMutExt::put_var_u64_le` (the `while b >= B` loop). -/
def put_var_u64_le (n : Nat) : List Nat :=
  if _h : 128 ≤ n then
    (lowest_u8 n ||| B) :: put_var_u64_le (n >>> 7)
  else
    [lowest_u8 n]
  termination_by n
  decreasing_by
    simp only [Nat.shiftRight_eq_div_pow]
    omega

/-- Loop body of `BytesExt::get_var_u32_le`: `fuel` counts the remaining
iterations of `for _ in 0..5`; `ret`/`base` are the `u32` accumulators
(wrap-around made explicit).  Returns the decoded value together with the
bytes left unconsumed. -/
def get_var_u32_go : Nat → List Nat → Nat → Nat → Option (Nat × List Nat)
  | 0, bs, ret, _ => some (ret, bs)
  | _ + 1, [], _, _ => none
  | fuel + 1, b :: bs, ret, base =>
    let is_end := b &&& B == 0
    let cur := b &&& 127
    let ret := (ret + cur * base) % 2 ^ 32
    let base := base * 128 % 2 ^ 32
    if is_end then some (ret, bs) else get_var_u32_go fuel bs ret base

/-- `BytesExt::get_var_u32_le`. -/
def get_var_u32_le (bs : List Nat) : Option (Nat × List Nat) :=
  get_var_u32_go 5 bs 0 1

/-- Loop body of `BytesExt::get_var_u64_le` (`for _ in 0..10`). -/
def get_var_u64_go : Nat → List Nat → Nat → Nat → Option (Nat × List Nat)
  | 0, bs, ret, _ => some (ret, bs)
  | _ + 1, [], _, _ => none
  | fuel + 1, b :: bs, ret, base =>
    let is_end := b &&& B == 0
    let cur := b &&& 127
    let ret := (ret + cur * base) % 2 ^ 64
    let base := base * 128 % 2 ^ 64
    if is_end then some (ret, bs) else get_var_u64_go fuel bs ret base

/-- `BytesExt::get_var_u64_le`. -/
def get_var_u64_le (bs : List Nat) : Option (Nat × List Nat) :=
  get_var_u64_go 10 bs 0 1

/-! ## CRC-32C (crc crate v1.x, `crc32::Digest::new(crc32::CASTAGNOLI)`)

`CASTAGNOLI` in the crc crate is the reflected polynomial `0x82f63b78`;
`make_table` applies eight reflected steps per index, `update` complements
the running value, folds the table step over the bytes and complements again,
and `Digest` stores the running `value` (initial 0) so that successive
`write` calls compose. -/

def CASTAGNOLI : Nat := 0x82f63b78

/-- One bit-step of `crc32::make_table`. -/
def crc_table_step (v : Nat) : Nat :=
  if v % 2 == 1 then CASTAGNOLI ^^^ (v >>> 1) else v >>> 1

/-- `crc32::make_table(poly)[i]` (computed instead of tabulated). -/
def crc_table (i : Nat) : Nat := crc_table_step^[8] i

/-- Per-byte step of `crc32::update`:
`value = table[((value as u8) ^ i) as usize] ^ (value >> 8)`. -/
def crc_update_byte (value b : Nat) : Nat :=
  crc_table ((value &&& 255) ^^^ b) ^^^ (value >>> 8)

/-- `crc32::update(value, table, bytes)` (`!` on a `u32` is `^^^ 0xffffffff`). -/
def crc_update (value : Nat) (bs : List Nat) : Nat :=
  (bs.foldl crc_update_byte (value ^^^ 0xffffffff)) ^^^ 0xffffffff

/-- `Digest::new(CASTAGNOLI)` followed by `write(&[ty])`, `write(rec)`,
`sum32()` — the checksum computed by both `emit_physical_record` and
`Record::is_valid`. -/
def crc32_digest (ty : Nat) (rec : List Nat) : Nat :=
  crc_update (crc_update 0 [ty]) rec

/-! ## Little-endian helpers (`put_u32_le`, `put_u16_le`, `from_le_bytes`) -/

/-- `BufMut::put_u32_le` for `x < 2 ^ 32`. -/
def to_le32 (x : Nat) : List Nat :=
  [x % 256, x / 256 % 256, x / 65536 % 256, x / 16777216 % 256]

/-- `BufMut::put_u16_le` for `x < 2 ^ 16`. -/
def to_le16 (x : Nat) : List Nat := [x % 256, x / 256 % 256]

/-- `u32::from_le_bytes` on a 4-byte slice. -/
def from_le32 (l : List Nat) : Nat :=
  match l with
  | [a, b, c, d] => a + 256 * b + 65536 * c + 16777216 * d
  | _ => 0

/-- `u16::from_le_bytes` on a 2-byte slice. -/
def from_le16 (l : List Nat) : Nat :=
  match l with
  | [a, b] => a + 256 * b
  | _ => 0

/-! ## vfs.rs (model)

A `VFile` is append-only on the writer side and a sequential cursor on the
reader side.  The only I/O failure the pure model produces by itself is the
unexpected-EOF of `read_exact`; write-side I/O failures are injected through
the `faults` schedule (one entry consumed per `append`, `false` = the append
fails atomically). -/

inductive IoErrorKind where
  | unexpectedEof
  | other
deriving DecidableEq, Repr

inductive VfsError where
  | ioError (kind : IoErrorKind)
deriving DecidableEq, Repr

/-- Writer-side handle of a `VFile`: accumulated bytes plus the injected
fault schedule. -/
structure VFileW where
  data : List Nat
  faults : List Bool
deriving DecidableEq, Repr

/-- `VFile::append` (with fault injection; a failed append leaves the file
unchanged). -/
def VFileW.append (f : VFileW) (bs : List Nat) : Except VfsError Unit × VFileW :=
  match f.faults with
  | false :: rest => (.error (.ioError .other), { f with faults := rest })
  | true :: rest => (.ok (), { data := f.data ++ bs, faults := rest })
  | [] => (.ok (), { f with data := f.data ++ bs })

/-! ## wal.rs -/

def BLOCK_SIZE : Nat := 32768

/-- checksum (4 bytes) + length (2 bytes) + type (1 byte). -/
def HEADER_SIZE : Nat := 4 + 2 + 1

inductive WalError where
  | vfsError (e : VfsError)
  | invalidWalFileError
  | invalidRecordTypeError
  | ioError
deriving DecidableEq, Repr

inductive RecordType where
  | full
  | first
  | middle
  | last
deriving DecidableEq, Repr

/-- The `#[repr(u8)]` discriminants `Full=1, First=2, Middle=3, Last=4`. -/
def RecordType.to_u8 : RecordType → Nat
  | .full => 1
  | .first => 2
  | .middle => 3
  | .last => 4

/-- `RecordType::calc(is_begin, is_end)`. -/
def RecordType.calc (is_begin is_end : Bool) : RecordType :=
  match is_begin, is_end with
  | true, true => .full
  | true, false => .first
  | false, true => .last
  | false, false => .middle

/-- `RecordType::from_u8`. -/
def RecordType.from_u8 (ty : Nat) : Except WalError RecordType :=
  if ty = 1 then .ok .full
  else if ty = 2 then .ok .first
  else if ty = 3 then .ok .middle
  else if ty = 4 then .ok .last
  else .error .invalidRecordTypeError

structure Record where
  crc : Nat
  len : Nat
  ty : RecordType
  data : List Nat
deriving DecidableEq, Repr

/-- `Record::is_valid`. -/
def Record.is_valid (r : Record) : Bool :=
  crc32_digest r.ty.to_u8 r.data == r.crc

/-- `WalFileWriter`: owned file plus `block_offset`. -/
structure WalFileWriter where
  file : VFileW
  block_offset : Nat
deriving DecidableEq, Repr

/-- `WalFileWriter::new(vfile)`: `block_offset = vfile.len() % BLOCK_SIZE`. -/
def WalFileWriter.new (file : VFileW) : WalFileWriter :=
  { file := file, block_offset := file.data.length % BLOCK_SIZE }

/-- `WalFileWriter::emit_physical_record`: checksum over `type ‖ rec`, then
`crc (u32 le) ‖ length (u16 le, `rec.len() as u16`) ‖ type ‖ rec` appended. -/
def WalFileWriter.emit_physical_record (w : WalFileWriter) (ty : RecordType)
    (rec : List Nat) : Except VfsError Unit × WalFileWriter :=
  let checksum := crc32_digest ty.to_u8 rec
  let data := to_le32 checksum ++ to_le16 (rec.length % 65536) ++ [ty.to_u8] ++ rec
  match w.file.append data with
  | (.error e, f) => (.error e, { w with file := f })
  | (.ok _, f) => (.ok (), { w with file := f })

mutual

/-- One pass of the `while let Some(data) = rest_data` loop of
`WalFileWriter::write_data`, starting at the `left_over` computation and the
`if left_over < HEADER_SIZE` padding branch; `write_data_emit` is the rest of
the same loop body (split only so the termination measure can see
`block_offset`).  Mirrors the source: `left_over` is *not* recomputed after
the padding branch resets `block_offset` to 0, `cur_len` is
`min(data.len(), left_over)` (the source's
`if left_over >= data.len() { data.len() } else { left_over }`), and
`block_offset` advances by `cur_len` alone. -/
def write_data_loop (file : VFileW) (block_offset : Nat) (dat : List Nat)
    (is_begin : Bool) : Except VfsError Unit × WalFileWriter :=
  let left_over := BLOCK_SIZE - block_offset
  if left_over < HEADER_SIZE then
    -- `self.file.append(&ZEROES[..left_over])?; self.block_offset = 0;`
    let a := VFileW.append file (List.replicate left_over 0)
    match a.1 with
    | .error e => (.error e, ⟨a.2, block_offset⟩)
    | .ok _ => write_data_emit a.2 0 dat is_begin left_over
  else
    write_data_emit file block_offset dat is_begin left_over
  termination_by (4 * dat.length + (if BLOCK_SIZE - block_offset = 0 then 3 else 0), 1)
  decreasing_by
    all_goals
      have hBS : BLOCK_SIZE = 32768 := rfl
      have hHS : HEADER_SIZE = 7 := rfl
      simp only [Prod.lex_def, List.length_drop] at *
      split_ifs at * <;> omega

/-- Second half of the loop body of `WalFileWriter::write_data`: compute
`cur_len`/`is_end` from the (possibly stale) `left_over`, emit the physical
record, advance `block_offset` by `cur_len`, and continue with the rest of
the payload unless it is exhausted. -/
def write_data_emit (file : VFileW) (block_offset : Nat) (dat : List Nat)
    (is_begin : Bool) (left_over : Nat) : Except VfsError Unit × WalFileWriter :=
  let is_end := decide (dat.length ≤ left_over)
  let cur_len := min dat.length left_over
  let r := WalFileWriter.emit_physical_record ⟨file, block_offset⟩
    (RecordType.calc is_begin is_end) (dat.take cur_len)
  match r.1 with
  | .error e => (.error e, r.2)
  | .ok _ =>
    if _h : dat.length = cur_len then (.ok (), ⟨r.2.file, block_offset + cur_len⟩)
    else write_data_loop r.2.file (block_offset + cur_len) (dat.drop cur_len) false
  termination_by
    (4 * dat.length +
      (if left_over = 0 then (if BLOCK_SIZE - block_offset = 0 then 4 else 1) else 0), 0)
  decreasing_by
    all_goals
      have hBS : BLOCK_SIZE = 32768 := rfl
      have hHS : HEADER_SIZE = 7 := rfl
      simp only [Prod.lex_def, List.length_drop] at *
      split_ifs at * <;> omega

end

/-- `WalFileWriter::write_data`. -/
def WalFileWriter.write_data (w : WalFileWriter) (dat : List Nat) :
    Except VfsError Unit × WalFileWriter :=
  write_data_loop w.file w.block_offset dat true

/-- `Wal::set_impl`: length-prefixed payload, then `write_data`
(`VfsError` is converted into `WalError` by `?`). -/
def Wal.set (w : WalFileWriter) (key value : List Nat) :
    Except WalError Unit × WalFileWriter :=
  let data := put_var_u32_le (key.length % 2 ^ 32) ++ key ++
    put_var_u32_le (value.length % 2 ^ 32) ++ value
  match w.write_data data with
  | (.error e, w) => (.error (.vfsError e), w)
  | (.ok _, w) => (.ok (), w)

/-- `WalFileReader`: owned file handle with the sequential read cursor of the
underlying reader `File`. -/
structure WalFileReader where
  data : List Nat
  cursor : Nat
deriving DecidableEq, Repr

/-- `VFile::read_exact(&mut buf)` on the reader handle: reads exactly `n`
bytes from the cursor or fails with `ErrorKind::UnexpectedEof`. -/
def WalFileReader.read_exact (r : WalFileReader) (n : Nat) :
    Except VfsError (List Nat × WalFileReader) :=
  if r.cursor + n ≤ r.data.length then
    .ok ((r.data.drop r.cursor).take n, { r with cursor := r.cursor + n })
  else
    .error (.ioError .unexpectedEof)

/-- `WalFileReader::read_record`.  A failed 7-byte header read with kind
`UnexpectedEof` is a clean end of log (`Ok(None)`); any other read failure
propagates via `?` as `WalError::VfsError`.  The payload is read *before*
`RecordType::from_u8` runs, and a checksum mismatch in `is_valid` yields
`InvalidRecordTypeError`. -/
def WalFileReader.read_record (r : WalFileReader) :
    Except WalError (Option (Record × WalFileReader)) :=
  match r.read_exact (4 + 2 + 1) with
  | .error (.ioError .unexpectedEof) => .ok none
  | .error e => .error (.vfsError e)
  | .ok (buf, r) =>
    let crc := from_le32 (buf.take 4)
    let len := from_le16 ((buf.drop 4).take 2)
    let ty := buf.getD 6 0
    match r.read_exact len with
    | .error e => .error (.vfsError e)
    | .ok (data, r) =>
      match RecordType.from_u8 ty with
      | .error e => .error e
      | .ok rty =>
        let record : Record := { crc := crc, len := len, ty := rty, data := data }
        if record.is_valid then .ok (some (record, r))
        else .error .invalidRecordTypeError

/-- `read_rest_records(reader)`: loop reading `Middle*` then `Last` after a
`First`; EOF inside the fragmentation is `InvalidWalFileError`, any other
type is `InvalidRecordTypeError`. -/
def read_rest_records (r : WalFileReader) :
    Except WalError (List Record × WalFileReader) :=
  match h : r.read_record with
  | .error e => .error e
  | .ok none => .error .invalidWalFileError
  | .ok (some (rec, r')) =>
    match rec.ty with
    | .middle =>
      match read_rest_records r' with
      | .error e => .error e
      | .ok (rest, r'') => .ok (rec :: rest, r'')
    | .last => .ok ([rec], r')
    | _ => .error .invalidRecordTypeError
  termination_by r.data.length - r.cursor
  decreasing_by
    have hex : ∀ (rr : WalFileReader) (n : Nat) (bs : List Nat)
        (rr2 : WalFileReader), rr.read_exact n = .ok (bs, rr2) →
        rr2 = { rr with cursor := rr.cursor + n } ∧
          rr.cursor + n ≤ rr.data.length := by
      intro rr n bs rr2 hh
      unfold WalFileReader.read_exact at hh
      split_ifs at hh with hc
      simp only [Except.ok.injEq, Prod.mk.injEq] at hh
      exact ⟨hh.2.symm, hc⟩
    have hcur : r'.data = r.data ∧ r.cursor < r'.cursor ∧
        r'.cursor ≤ r.data.length := by
      unfold WalFileReader.read_record at h
      cases h1 : r.read_exact (4 + 2 + 1) with
      | error e =>
        rw [h1] at h
        cases e with
        | ioError k => cases k <;> simp at h
      | ok p =>
        obtain ⟨buf, r1⟩ := p
        rw [h1] at h
        simp only at h
        cases h2 : r1.read_exact (from_le16 ((buf.drop 4).take 2)) with
        | error e => rw [h2] at h; cases h
        | ok p =>
          obtain ⟨data, r2⟩ := p
          rw [h2] at h
          simp only at h
          cases h3 : RecordType.from_u8 (buf.getD 6 0) with
          | error e => rw [h3] at h; cases h
          | ok rty =>
            rw [h3] at h
            simp only at h
            split_ifs at h with h4
            simp only [Except.ok.injEq, Option.some.injEq, Prod.mk.injEq] at h
            obtain ⟨-, h5⟩ := h
            subst h5
            obtain ⟨hr1, hc1⟩ := hex _ _ _ _ h1
            obtain ⟨hr2, hc2⟩ := hex _ _ _ _ h2
            subst hr1
            subst hr2
            refine ⟨rfl, ?_, ?_⟩ <;> (dsimp only at hc2 ⊢; omega)
    obtain ⟨hd, hlt, hle⟩ := hcur
    have hlen : r'.data.length = r.data.length := by rw [hd]
    omega

/-- `WalFileReader::read_data`: one logical payload (`Full`, or `First`
followed by `read_rest_records`, folding the fragment payloads together),
`None` at clean EOF. -/
def WalFileReader.read_data (r : WalFileReader) :
    Except WalError (Option (List Nat × WalFileReader)) :=
  match r.read_record with
  | .error e => .error e
  | .ok none => .ok none
  | .ok (some (first, r')) =>
    match first.ty with
    | .full => .ok (some (first.data, r'))
    | .first =>
      match read_rest_records r' with
      | .error e => .error e
      | .ok (rest, r'') =>
        .ok (some ((first :: rest).foldl (fun acc rec => acc ++ rec.data) [], r''))
    | _ => .error .invalidRecordTypeError

/-! ## mem_table.rs

`MemTable` is a `BTreeMap<Bytes, Bytes>`; the claims here only use its map
semantics (point get, overwriting insert), modelled as an association list
with insert-or-replace. -/

structure MemTable where
  entries : List (List Nat × List Nat)
deriving DecidableEq, Repr

/-- `MemTable::new`. -/
def MemTable.new : MemTable := { entries := [] }

/-- `MemTable::get` (`BTreeMap::get(key).cloned()`). -/
def MemTable.get (m : MemTable) (key : List Nat) : Option (List Nat) :=
  (m.entries.find? (fun kv => kv.1 == key)).map (fun kv => kv.2)

/-- `MemTable::set` (`BTreeMap::insert`, returning the previous value). -/
def MemTable.set (m : MemTable) (key value : List Nat) :
    Option (List Nat) × MemTable :=
  let old := m.get key
  let entries :=
    if (m.entries.find? (fun kv => kv.1 == key)).isSome then
      m.entries.map (fun kv => if kv.1 == key then (kv.1, value) else kv)
    else
      m.entries ++ [(key, value)]
  (old, { entries := entries })

/-! ## db.rs -/

inductive DbError where
  | vfsError (e : VfsError)
  | walError (e : WalError)
deriving DecidableEq, Repr

/-- `Db`: the Vfs handle is represented by the WAL file it reaches. -/
structure Db where
  mem : MemTable
  wal : WalFileWriter
deriving DecidableEq, Repr

/-- `Db::create(path)`: constructs the `Vfs`, opens the `Wal`
(`WalFileWriter::open` = `vfs.open("wal.log")` on the existing file content
followed by `WalFileWriter::new`), and starts a *fresh* `MemTable::new()`;
nothing is replayed.  `wal_file` is the current content of `wal.log` under
`path` (empty when the file is created), `faults` the injected append-fault
schedule. -/
def Db.create (wal_file : List Nat) (faults : List Bool) : Db :=
  { mem := MemTable.new,
    wal := WalFileWriter.new { data := wal_file, faults := faults } }

/-- `Db::get`. -/
def Db.get (db : Db) (key : List Nat) : Except DbError (Option (List Nat)) :=
  .ok (db.mem.get key)

/-- `Db::set`: `self.wal.set(&key, &value).await?; self.mem.set(key, value)`.
The pair result models the mutation of `&self`: on a WAL error the `?`
returns before `mem.set` runs. -/
def Db.set (db : Db) (key value : List Nat) : Except DbError Unit × Db :=
  match Wal.set db.wal key value with
  | (.error e, w) => (.error (.walError e), { db with wal := w })
  | (.ok _, w) => (.ok (), { mem := (db.mem.set key value).2, wal := w })

/-! ## sorted_stable.rs -/

def RESTART_THRESHOLD : Nat := 16

/-- `shared_prefix_len`. -/
def shared_prefix_len (key1 key2 : List Nat) : Nat :=
  ((key1.zip key2).takeWhile (fun ab => ab.1 == ab.2)).length

structure BlockBuilder where
  buf : List Nat
  restarts : List Nat
  count : Nat
  last_key : List Nat
deriving DecidableEq, Repr

/-- `BlockBuilder::new`. -/
def BlockBuilder.new : BlockBuilder :=
  { buf := [], restarts := [], count := 0, last_key := [] }

/-- `BlockBuilder::add`. -/
def BlockBuilder.add (b : BlockBuilder) (key value : List Nat) : BlockBuilder :=
  let shared :=
    if b.count < RESTART_THRESHOLD then shared_prefix_len b.last_key key else 0
  let restarts :=
    if b.count < RESTART_THRESHOLD then b.restarts else b.restarts ++ [b.buf.length]
  let count := if b.count < RESTART_THRESHOLD then b.count else 0
  let non_shared := key.length - shared
  { buf := b.buf ++ put_var_u32_le (shared % 2 ^ 32) ++
      put_var_u32_le (non_shared % 2 ^ 32) ++ put_var_u32_le (value.length % 2 ^ 32) ++
      key.drop shared ++ value,
    restarts := restarts,
    count := count + 1,
    last_key := key }

/-- `BlockBuilder::build`: append each restart offset as u32 le, then the
restart count as u32 le. -/
def BlockBuilder.build (b : BlockBuilder) : List Nat :=
  b.buf ++ (b.restarts.map (fun i => to_le32 (i % 2 ^ 32))).flatten ++
    to_le32 (b.restarts.length % 2 ^ 32)

/-- Folding `BlockBuilder::add` over a list of entries. -/
def BlockBuilder.add_all (b : BlockBuilder) (kvs : List (List Nat × List Nat)) :
    BlockBuilder :=
  kvs.foldl (fun b kv => b.add kv.1 kv.2) b

/-! ## Helper lemmas on byte-level bit operations -/

set_option maxRecDepth 8192

theorem byte_and_128_eq_zero : ∀ b, b < 256 → (b &&& 128 = 0 ↔ b < 128) := by
  decide

theorem byte_or_128_and_127 : ∀ b, b < 256 → (b ||| 128) &&& 127 = b % 128 := by
  decide

theorem byte_or_128_and_128 : ∀ b, b < 256 → (b ||| 128) &&& 128 = 128 := by
  decide

theorem byte_lt_128_and_127 : ∀ b, b < 128 → b &&& 127 = b := by
  decide

theorem byte_lt_128_and_128 : ∀ b, b < 128 → b &&& 128 = 0 := by
  decide

/-- A decoder iteration on a byte with the continuation bit set. -/
theorem get_var_u32_go_cont (fuel x ret base : Nat) (rest : List Nat) :
    get_var_u32_go (fuel + 1) ((lowest_u8 x ||| B) :: rest) ret base =
      get_var_u32_go fuel rest ((ret + x % 128 * base) % 2 ^ 32)
        (base * 128 % 2 ^ 32) := by
  have hx : lowest_u8 x < 256 := Nat.mod_lt _ (by norm_num)
  have h1 := byte_or_128_and_128 _ hx
  have h2 := byte_or_128_and_127 _ hx
  have h3 : lowest_u8 x % 128 = x % 128 := Nat.mod_mod_of_dvd x (by norm_num)
  simp only [get_var_u32_go, B] at *
  simp [h1, h2, h3]

/-- A decoder iteration on a terminating byte (`x < 128`). -/
theorem get_var_u32_go_end (fuel x ret base : Nat) (rest : List Nat)
    (hx : x < 128) :
    get_var_u32_go (fuel + 1) (x :: rest) ret base =
      some ((ret + x * base) % 2 ^ 32, rest) := by
  have h1 := byte_lt_128_and_128 _ hx
  have h2 := byte_lt_128_and_127 _ hx
  simp only [get_var_u32_go, B] at *
  simp [h1, h2]

/-- Same as `get_var_u32_go_cont` for the u64 decoder. -/
theorem get_var_u64_go_cont (fuel x ret base : Nat) (rest : List Nat) :
    get_var_u64_go (fuel + 1) ((lowest_u8 x ||| B) :: rest) ret base =
      get_var_u64_go fuel rest ((ret + x % 128 * base) % 2 ^ 64)
        (base * 128 % 2 ^ 64) := by
  have hx : lowest_u8 x < 256 := Nat.mod_lt _ (by norm_num)
  have h1 := byte_or_128_and_128 _ hx
  have h2 := byte_or_128_and_127 _ hx
  have h3 : lowest_u8 x % 128 = x % 128 := Nat.mod_mod_of_dvd x (by norm_num)
  simp only [get_var_u64_go, B] at *
  simp [h1, h2, h3]

/-- Same as `get_var_u32_go_end` for the u64 decoder. -/
theorem get_var_u64_go_end (fuel x ret base : Nat) (rest : List Nat)
    (hx : x < 128) :
    get_var_u64_go (fuel + 1) (x :: rest) ret base =
      some ((ret + x * base) % 2 ^ 64, rest) := by
  have h1 := byte_lt_128_and_128 _ hx
  have h2 := byte_lt_128_and_127 _ hx
  simp only [get_var_u64_go, B] at *
  simp [h1, h2]

/-- When the decoder returns `none`: only when the bytes run out (within the
iteration budget) before a terminating byte. -/
theorem get_var_u32_go_none : ∀ (fuel : Nat) (bs : List Nat) (ret base : Nat),
    (∀ b ∈ bs, b < 256) →
    (get_var_u32_go fuel bs ret base = none ↔
      bs.length < fuel ∧ ∀ b ∈ bs, 128 ≤ b) := by
  intro fuel
  induction fuel with
  | zero => intro bs ret base _; simp [get_var_u32_go]
  | succ n ih =>
    intro bs ret base hb
    cases bs with
    | nil => simp [get_var_u32_go]
    | cons b rest =>
      have hb0 : b < 256 := hb b (by simp)
      by_cases h128 : 128 ≤ b
      · have hz : ¬b &&& 128 = 0 := by
          rw [byte_and_128_eq_zero b hb0]; omega
        simp only [get_var_u32_go, B, List.length_cons]
        rw [if_neg (by simpa using hz)]
        rw [ih rest _ _ (fun x hx => hb x (List.mem_cons_of_mem _ hx))]
        constructor
        · rintro ⟨h1, h2⟩
          exact ⟨by omega, by
            intro x hx
            rcases List.mem_cons.mp hx with h | h
            · subst h; exact h128
            · exact h2 x h⟩
        · rintro ⟨h1, h2⟩
          exact ⟨by omega, fun x hx => h2 x (List.mem_cons_of_mem _ hx)⟩
      · have hz : b &&& 128 = 0 := by
          rw [byte_and_128_eq_zero b hb0]; omega
        simp only [get_var_u32_go, B, List.length_cons]
        rw [if_pos (by simpa using hz)]
        simp only [reduceCtorEq, false_iff, not_and, not_forall]
        exact fun _ => ⟨b, by simp, by omega⟩

/-- Same as `get_var_u32_go_none` for the u64 decoder. -/
theorem get_var_u64_go_none : ∀ (fuel : Nat) (bs : List Nat) (ret base : Nat),
    (∀ b ∈ bs, b < 256) →
    (get_var_u64_go fuel bs ret base = none ↔
      bs.length < fuel ∧ ∀ b ∈ bs, 128 ≤ b) := by
  intro fuel
  induction fuel with
  | zero => intro bs ret base _; simp [get_var_u64_go]
  | succ n ih =>
    intro bs ret base hb
    cases bs with
    | nil => simp [get_var_u64_go]
    | cons b rest =>
      have hb0 : b < 256 := hb b (by simp)
      by_cases h128 : 128 ≤ b
      · have hz : ¬b &&& 128 = 0 := by
          rw [byte_and_128_eq_zero b hb0]; omega
        simp only [get_var_u64_go, B, List.length_cons]
        rw [if_neg (by simpa using hz)]
        rw [ih rest _ _ (fun x hx => hb x (List.mem_cons_of_mem _ hx))]
        constructor
        · rintro ⟨h1, h2⟩
          exact ⟨by omega, by
            intro x hx
            rcases List.mem_cons.mp hx with h | h
            · subst h; exact h128
            · exact h2 x h⟩
        · rintro ⟨h1, h2⟩
          exact ⟨by omega, fun x hx => h2 x (List.mem_cons_of_mem _ hx)⟩
      · have hz : b &&& 128 = 0 := by
          rw [byte_and_128_eq_zero b hb0]; omega
        simp only [get_var_u64_go, B, List.length_cons]
        rw [if_pos (by simpa using hz)]
        simp only [reduceCtorEq, false_iff, not_and, not_forall]
        exact fun _ => ⟨b, by simp, by omega⟩

/-- C7 (counterexample): the claim says the decoders fail when the maximum
number of bytes (5 for u32, 10 for u64) is consumed without a terminating
byte, and when the decoded value would exceed the declared width.  On the
code, five continuation bytes decode to `Some(0)` with all five bytes
consumed, ten continuation bytes decode to `Some(0)` for u64, and a 5-byte
sequence encoding a value ≥ 2^32 wraps instead of failing. -/
theorem c7_counterexample :
    get_var_u32_le [128, 128, 128, 128, 128] = some (0, []) ∧
    get_var_u64_le [128, 128, 128, 128, 128, 128, 128, 128, 128, 128] =
      some (0, []) ∧
    get_var_u32_le [255, 255, 255, 255, 31] = some (4294967295, []) ∧
    get_var_u32_le [128, 128, 128, 128, 128] ≠ none := by
  refine ⟨by decide, by decide, by decide, by decide⟩

/-- C7 (amended): `get_var_u32_le`/`get_var_u64_le` return `None` exactly
when the input ends before a byte with the continuation bit clear and fewer
than 5 (resp. 10) bytes were available; consuming the maximum number of
bytes without a terminator still yields a value, and overflow wraps. -/
theorem c7_var_decoder_failure (bs : List Nat) (hb : ∀ b ∈ bs, b < 256) :
    (get_var_u32_le bs = none ↔ bs.length < 5 ∧ ∀ b ∈ bs, 128 ≤ b) ∧
    (get_var_u64_le bs = none ↔ bs.length < 10 ∧ ∀ b ∈ bs, 128 ≤ b) :=
  ⟨get_var_u32_go_none 5 bs 0 1 hb, get_var_u64_go_none 10 bs 0 1 hb⟩

/-- Witness for C7's amended theorem at the concrete inputs `[200]` and
`[200, 200]`. -/
theorem c7_var_decoder_failure_witness :
    ((get_var_u32_le [200] = none ↔ [200].length < 5 ∧ ∀ b ∈ [200], 128 ≤ b) ∧
      (get_var_u64_le [200] = none ↔ [200].length < 10 ∧ ∀ b ∈ [200], 128 ≤ b)) ∧
    ((get_var_u32_le [200, 200] = none ↔
        [200, 200].length < 5 ∧ ∀ b ∈ [200, 200], 128 ≤ b) ∧
      (get_var_u64_le [200, 200] = none ↔
        [200, 200].length < 10 ∧ ∀ b ∈ [200, 200], 128 ≤ b)) :=
  ⟨c7_var_decoder_failure [200] (by decide),
    c7_var_decoder_failure [200, 200] (by decide)⟩

/-- u32 round-trip: decoding right after encoding returns the value and
leaves exactly the trailing bytes. -/
theorem put_get_u32 (v : Nat) (rest : List Nat) (hv : v < 2 ^ 32) :
    get_var_u32_le (put_var_u32_le v ++ rest) = some (v, rest) := by
  unfold get_var_u32_le put_var_u32_le
  have e7 : v >>> 7 % 128 = v / 128 % 128 := by
    simp only [Nat.shiftRight_eq_div_pow]
  have e14 : v >>> 14 % 128 = v / 16384 % 128 := by
    simp only [Nat.shiftRight_eq_div_pow]
  have e21 : v >>> 21 % 128 = v / 2097152 % 128 := by
    simp only [Nat.shiftRight_eq_div_pow]
  by_cases h1 : v < 2 ^ 7
  · rw [if_pos h1]
    have hb : lowest_u8 v = v := by
      simp only [lowest_u8]; omega
    rw [hb]
    simp only [List.cons_append, List.nil_append]
    rw [show (5 : Nat) = 4 + 1 from rfl, get_var_u32_go_end 4 v 0 1 rest (by omega)]
    have hval : (0 + v * 1) % 2 ^ 32 = v := by omega
    rw [hval]
  · rw [if_neg h1]
    by_cases h2 : v < 2 ^ 14
    · rw [if_pos h2]
      simp only [List.cons_append, List.nil_append]
      rw [show (5 : Nat) = 4 + 1 from rfl, get_var_u32_go_cont 4 v 0 1]
      have hb : lowest_u8 (v >>> 7) = v / 128 := by
        simp only [lowest_u8, Nat.shiftRight_eq_div_pow]; omega
      rw [hb, show (4 : Nat) = 3 + 1 from rfl,
        get_var_u32_go_end 3 (v / 128) _ _ rest (by omega)]
      simp only [Option.some.injEq, Prod.mk.injEq, and_true]
      norm_num
      omega
    · rw [if_neg h2]
      by_cases h3 : v < 2 ^ 21
      · rw [if_pos h3]
        simp only [List.cons_append, List.nil_append]
        rw [show (5 : Nat) = 4 + 1 from rfl, get_var_u32_go_cont 4 v 0 1,
          show (4 : Nat) = 3 + 1 from rfl, get_var_u32_go_cont 3 (v >>> 7)]
        have hb : lowest_u8 (v >>> 14) = v / 16384 := by
          simp only [lowest_u8, Nat.shiftRight_eq_div_pow]; omega
        rw [hb, e7, show (3 : Nat) = 2 + 1 from rfl,
          get_var_u32_go_end 2 (v / 16384) _ _ rest (by omega)]
        simp only [Option.some.injEq, Prod.mk.injEq, and_true]
        norm_num
        omega
      · rw [if_neg h3]
        by_cases h4 : v < 2 ^ 28
        · rw [if_pos h4]
          simp only [List.cons_append, List.nil_append]
          rw [show (5 : Nat) = 4 + 1 from rfl, get_var_u32_go_cont 4 v 0 1,
            show (4 : Nat) = 3 + 1 from rfl, get_var_u32_go_cont 3 (v >>> 7),
            show (3 : Nat) = 2 + 1 from rfl, get_var_u32_go_cont 2 (v >>> 14)]
          have hb : lowest_u8 (v >>> 21) = v / 2097152 := by
            simp only [lowest_u8, Nat.shiftRight_eq_div_pow]; omega
          rw [hb, e7, e14, show (2 : Nat) = 1 + 1 from rfl,
            get_var_u32_go_end 1 (v / 2097152) _ _ rest (by omega)]
          simp only [Option.some.injEq, Prod.mk.injEq, and_true]
          norm_num
          omega
        · rw [if_neg h4]
          simp only [List.cons_append, List.nil_append]
          rw [show (5 : Nat) = 4 + 1 from rfl, get_var_u32_go_cont 4 v 0 1,
            show (4 : Nat) = 3 + 1 from rfl, get_var_u32_go_cont 3 (v >>> 7),
            show (3 : Nat) = 2 + 1 from rfl, get_var_u32_go_cont 2 (v >>> 14),
            show (2 : Nat) = 1 + 1 from rfl, get_var_u32_go_cont 1 (v >>> 21)]
          have hb : lowest_u8 (v >>> 28) = v / 268435456 := by
            simp only [lowest_u8, Nat.shiftRight_eq_div_pow]; omega
          rw [hb, e7, e14, e21, show (1 : Nat) = 0 + 1 from rfl,
            get_var_u32_go_end 0 (v / 268435456) _ _ rest (by omega)]
          simp only [Option.some.injEq, Prod.mk.injEq, and_true]
          norm_num
          omega

/-- Length bound for the u64 encoder. -/
theorem put_var_u64_le_length : ∀ (k v : Nat), v < 2 ^ (7 * (k + 1)) →
    (put_var_u64_le v).length ≤ k + 1 := by
  intro k
  induction k with
  | zero =>
    intro v hv
    rw [put_var_u64_le, dif_neg (by norm_num at hv; omega)]
    simp
  | succ n ih =>
    intro v hv
    rw [put_var_u64_le]
    by_cases h : 128 ≤ v
    · rw [dif_pos h]
      simp only [List.length_cons]
      have hs : v >>> 7 < 2 ^ (7 * (n + 1)) := by
        rw [Nat.shiftRight_eq_div_pow]
        have hp : (2 : Nat) ^ (7 * (n + 1 + 1)) = 2 ^ (7 * (n + 1)) * 2 ^ 7 := by
          rw [← pow_add]
          ring_nf
        rw [hp] at hv
        have : (2 : Nat) ^ 7 = 128 := by norm_num
        rw [this] at hv
        omega
      exact Nat.succ_le_succ (ih _ hs)
    · rw [dif_neg h]
      simp

/-- The u64 encoder always emits at least one byte. -/
theorem put_var_u64_le_ne_nil (v : Nat) : 1 ≤ (put_var_u64_le v).length := by
  rw [put_var_u64_le]
  split_ifs <;> simp

/-- u64 round-trip, generalized over the loop accumulator. -/
theorem put_get_u64_aux : ∀ (v fuel ret base : Nat) (rest : List Nat),
    1 ≤ fuel → v < 2 ^ (7 * fuel) → ret + v * base < 2 ^ 64 →
    get_var_u64_go fuel (put_var_u64_le v ++ rest) ret base =
      some (ret + v * base, rest) := by
  intro v
  induction v using Nat.strong_induction_on with
  | _ v ih =>
    intro fuel ret base rest hf hv hlt
    obtain ⟨f, rfl⟩ : ∃ f, fuel = f + 1 := ⟨fuel - 1, by omega⟩
    by_cases h : 128 ≤ v
    · have hf2 : 1 ≤ f := by
        rcases Nat.eq_zero_or_pos f with h0 | h0
        · subst h0
          norm_num at hv
          omega
        · exact h0
      rw [put_var_u64_le, dif_pos h]
      simp only [List.cons_append]
      rw [get_var_u64_go_cont f v ret base]
      have hvb : 128 * base ≤ v * base := Nat.mul_le_mul_right base h
      have hbase : base * 128 % 2 ^ 64 = base * 128 := by
        apply Nat.mod_eq_of_lt
        omega
      have hret : (ret + v % 128 * base) % 2 ^ 64 = ret + v % 128 * base := by
        apply Nat.mod_eq_of_lt
        have : v % 128 * base ≤ v * base := Nat.mul_le_mul_right base (Nat.mod_le v 128)
        omega
      rw [hbase, hret]
      have hs : v >>> 7 = v / 128 := by
        rw [Nat.shiftRight_eq_div_pow]
      rw [hs]
      have hsv : v / 128 < v := Nat.div_lt_self (by omega) (by norm_num)
      have hsb : v / 128 < 2 ^ (7 * f) := by
        have hp : (2 : Nat) ^ (7 * (f + 1)) = 2 ^ (7 * f) * 2 ^ 7 := by
          rw [← pow_add]
          ring_nf
        rw [hp] at hv
        have h7 : (2 : Nat) ^ 7 = 128 := by norm_num
        rw [h7] at hv
        omega
      have heq : ret + v % 128 * base + v / 128 * (base * 128) = ret + v * base := by
        have hsplit : 128 * (v / 128) + v % 128 = v := Nat.div_add_mod v 128
        calc ret + v % 128 * base + v / 128 * (base * 128)
            = ret + (128 * (v / 128) + v % 128) * base := by ring
          _ = ret + v * base := by rw [hsplit]
      rw [ih (v / 128) hsv f (ret + v % 128 * base) (base * 128) rest hf2 hsb
        (by rw [heq]; exact hlt)]
      rw [heq]
    · rw [put_var_u64_le, dif_neg h]
      have hb : lowest_u8 v = v := by
        simp only [lowest_u8]
        omega
      rw [hb]
      simp only [List.cons_append, List.nil_append]
      rw [get_var_u64_go_end f v ret base rest (by omega)]
      rw [Nat.mod_eq_of_lt hlt]

/-- C8: for every `u32` value `v`, decoding the bytes produced by encoding
`v` yields exactly `v` and consumes exactly the encoder's bytes (1 to 5 of
them); the same holds for every `u64` value (1 to 10 bytes). -/
theorem c8_varint_roundtrip :
    (∀ (v : Nat) (rest : List Nat), v < 2 ^ 32 →
      get_var_u32_le (put_var_u32_le v ++ rest) = some (v, rest) ∧
      1 ≤ (put_var_u32_le v).length ∧ (put_var_u32_le v).length ≤ 5) ∧
    (∀ (v : Nat) (rest : List Nat), v < 2 ^ 64 →
      get_var_u64_le (put_var_u64_le v ++ rest) = some (v, rest) ∧
      1 ≤ (put_var_u64_le v).length ∧ (put_var_u64_le v).length ≤ 10) := by
  constructor
  · intro v rest hv
    refine ⟨put_get_u32 v rest hv, ?_, ?_⟩ <;>
      (unfold put_var_u32_le; split_ifs <;> simp)
  · intro v rest hv
    refine ⟨?_, put_var_u64_le_ne_nil v, ?_⟩
    · have h := put_get_u64_aux v 10 0 1 rest (by norm_num)
        (lt_of_lt_of_le hv (by norm_num)) (by omega)
      simpa using h
    · exact put_var_u64_le_length 9 v (lt_of_lt_of_le hv (by norm_num))

/-- Witness for C8 at `v = 300` (u32) and `v = 2 ^ 40 + 17` (u64). -/
theorem c8_varint_roundtrip_witness :
    (300 < 2 ^ 32 ∧
      get_var_u32_le (put_var_u32_le 300 ++ [9]) = some (300, [9]) ∧
      1 ≤ (put_var_u32_le 300).length ∧ (put_var_u32_le 300).length ≤ 5) ∧
    (2 ^ 40 + 17 < 2 ^ 64 ∧
      get_var_u64_le (put_var_u64_le (2 ^ 40 + 17) ++ [7]) =
        some (2 ^ 40 + 17, [7]) ∧
      1 ≤ (put_var_u64_le (2 ^ 40 + 17)).length ∧
      (put_var_u64_le (2 ^ 40 + 17)).length ≤ 10) :=
  ⟨⟨by norm_num, c8_varint_roundtrip.1 300 [9] (by norm_num)⟩,
    ⟨by norm_num, c8_varint_roundtrip.2 (2 ^ 40 + 17) [7] (by norm_num)⟩⟩

/-! ## sorted_stable.rs lemmas (claim C10) -/

/-- The u32 varint encoder always emits at least one byte. -/
theorem put_var_u32_le_ne_nil (v : Nat) : 1 ≤ (put_var_u32_le v).length := by
  unfold put_var_u32_le
  split_ifs <;> simp

/-- `BlockBuilder::add` in the prefix-compression (`count < 16`) branch. -/
theorem block_builder_add_of_lt (st : BlockBuilder) (key value : List Nat)
    (h : st.count < RESTART_THRESHOLD) :
    (st.add key value).restarts = st.restarts ∧
    (st.add key value).count = st.count + 1 ∧
    st.buf.length + 3 ≤ (st.add key value).buf.length := by
  unfold BlockBuilder.add
  rw [if_pos h, if_pos h, if_pos h]
  refine ⟨rfl, rfl, ?_⟩
  simp only [List.length_append]
  have h1 := put_var_u32_le_ne_nil (shared_prefix_len st.last_key key % 2 ^ 32)
  have h2 := put_var_u32_le_ne_nil
    ((key.length - shared_prefix_len st.last_key key) % 2 ^ 32)
  have h3 := put_var_u32_le_ne_nil (value.length % 2 ^ 32)
  omega

/-- `BlockBuilder::add` in the restart (`count >= 16`) branch: the current
buffer length is pushed, the counter resets (then increments to 1), and the
entry is emitted with `shared = 0`. -/
theorem block_builder_add_of_ge (st : BlockBuilder) (key value : List Nat)
    (h : RESTART_THRESHOLD ≤ st.count) :
    (st.add key value).restarts = st.restarts ++ [st.buf.length] ∧
    (st.add key value).count = 1 ∧
    st.buf.length + 3 ≤ (st.add key value).buf.length ∧
    (st.add key value).buf = st.buf ++ put_var_u32_le 0 ++
      put_var_u32_le (key.length % 2 ^ 32) ++
      put_var_u32_le (value.length % 2 ^ 32) ++ key ++ value := by
  have h' : ¬st.count < RESTART_THRESHOLD := by omega
  unfold BlockBuilder.add
  rw [if_neg h', if_neg h', if_neg h']
  refine ⟨rfl, rfl, ?_, ?_⟩
  · simp only [List.length_append]
    have h1 := put_var_u32_le_ne_nil (0 % 2 ^ 32)
    have h2 := put_var_u32_le_ne_nil ((key.length - 0) % 2 ^ 32)
    have h3 := put_var_u32_le_ne_nil (value.length % 2 ^ 32)
    omega
  · simp

/-- Fold invariant for `BlockBuilder.add_all`: after `n` entries the counter
is `(n-1) % 16 + 1` (0 for `n = 0`), there are `(n-1)/16` recorded restarts,
and every recorded restart offset is positive. -/
theorem block_builder_add_all_inv :
    ∀ (kvs : List (List Nat × List Nat)) (n : Nat) (st : BlockBuilder),
    st.count = (if n = 0 then 0 else (n - 1) % 16 + 1) →
    st.count ≤ st.buf.length →
    st.restarts.length = (n - 1) / 16 →
    (∀ o ∈ st.restarts, 0 < o) →
    ((st.add_all kvs).count =
        (if n + kvs.length = 0 then 0 else (n + kvs.length - 1) % 16 + 1) ∧
      (st.add_all kvs).count ≤ (st.add_all kvs).buf.length ∧
      (st.add_all kvs).restarts.length = (n + kvs.length - 1) / 16 ∧
      ∀ o ∈ (st.add_all kvs).restarts, 0 < o) := by
  intro kvs
  induction kvs with
  | nil =>
    intro n st h1 h2 h3 h4
    simpa [BlockBuilder.add_all] using ⟨h1, h2, h3, h4⟩
  | cons kv rest ih =>
    intro n st h1 h2 h3 h4
    have hstep : (st.add_all (kv :: rest)) = ((st.add kv.1 kv.2).add_all rest) := by
      simp [BlockBuilder.add_all]
    have hlen : n + (kv :: rest).length = (n + 1) + rest.length := by
      simp only [List.length_cons]
      omega
    rw [hstep, hlen]
    have hth : RESTART_THRESHOLD = 16 := rfl
    by_cases hc : st.count < RESTART_THRESHOLD
    · obtain ⟨hr, hcnt, hbuf⟩ := block_builder_add_of_lt st kv.1 kv.2 hc
      refine ih (n + 1) (st.add kv.1 kv.2) ?_ ?_ ?_ ?_
      · rw [hcnt, h1]
        rw [h1, hth] at hc
        split_ifs at * <;> omega
      · omega
      · rw [hr, h3]
        rw [h1, hth] at hc
        split_ifs at hc <;> omega
      · rw [hr]
        exact h4
    · obtain ⟨hr, hcnt, hbuf, -⟩ := block_builder_add_of_ge st kv.1 kv.2 (by omega)
      have hn : n ≠ 0 := by
        intro hn0
        rw [hn0, if_pos rfl] at h1
        rw [h1, hth] at hc
        omega
      have hite : (if n = 0 then 0 else (n - 1) % 16 + 1) = st.count := h1.symm
      rw [if_neg hn] at hite
      rw [hth] at hc
      have hmod : (n - 1) % 16 = 15 := by omega
      have hn1 : 1 ≤ n := Nat.pos_of_ne_zero hn
      refine ih (n + 1) (st.add kv.1 kv.2) ?_ ?_ ?_ ?_
      · rw [hcnt, if_neg (by omega : ¬(n + 1 = 0))]
        omega
      · rw [hcnt]
        omega
      · rw [hr, List.length_append, h3, List.length_singleton]
        omega
      · rw [hr]
        intro o ho
        rcases List.mem_append.mp ho with hh | hh
        · exact h4 o hh
        · simp only [List.mem_singleton] at hh
          subst hh
          omega

/-- C10 (counterexample): adding 17 entries (keys `[107]`, values `[118]`)
records the restart list `[65]` — the offset of entry 16 only.  The very
first entry's starting offset (0) is *not* in the restart list, contrary to
the claim that indices 0, 16, 32, … are restarts. -/
theorem c10_counterexample :
    (BlockBuilder.new.add_all (List.replicate 17 ([107], [118]))).restarts =
      [65] ∧
    0 ∉ (BlockBuilder.new.add_all (List.replicate 17 ([107], [118]))).restarts := by
  have h : (BlockBuilder.new.add_all (List.replicate 17 ([107], [118]))).restarts =
      [65] := by decide
  rw [h]
  exact ⟨rfl, by decide⟩

/-- C10 (amended): a restart happens exactly at the entries added while
`count >= 16`, i.e. at indices 16, 32, 48, … (not index 0): such an entry is
stored with `shared = 0` and the current buffer length is appended to the
restart list; an entry added with `count < 16` appends no restart.  After
`n` adds from a fresh builder there are `(n - 1) / 16` restarts and every
recorded restart offset is positive — offset 0 is never recorded. -/
theorem c10_restart_points :
    (∀ (st : BlockBuilder) (key value : List Nat),
      RESTART_THRESHOLD ≤ st.count →
      (st.add key value).restarts = st.restarts ++ [st.buf.length] ∧
      (st.add key value).buf = st.buf ++ put_var_u32_le 0 ++
        put_var_u32_le (key.length % 2 ^ 32) ++
        put_var_u32_le (value.length % 2 ^ 32) ++ key ++ value) ∧
    (∀ (st : BlockBuilder) (key value : List Nat),
      st.count < RESTART_THRESHOLD →
      (st.add key value).restarts = st.restarts) ∧
    (∀ kvs : List (List Nat × List Nat),
      (BlockBuilder.new.add_all kvs).restarts.length = (kvs.length - 1) / 16 ∧
      ∀ o ∈ (BlockBuilder.new.add_all kvs).restarts, 0 < o) := by
  refine ⟨?_, ?_, ?_⟩
  · intro st key value h
    obtain ⟨h1, -, -, h2⟩ := block_builder_add_of_ge st key value h
    exact ⟨h1, h2⟩
  · intro st key value h
    exact (block_builder_add_of_lt st key value h).1
  · intro kvs
    have h := block_builder_add_all_inv kvs 0 BlockBuilder.new rfl
      (by simp [BlockBuilder.new]) rfl (by simp [BlockBuilder.new])
    constructor
    · have h1 := h.2.2.1
      simpa using h1
    · have h2 := h.2.2.2
      simpa using h2

/-- Witness for C10's amended theorem: the 17th entry (index 16) pushes a
restart, the first entry (fresh builder, `count = 0`) does not, and the
restart offset recorded after 17 adds is the positive offset 65. -/
theorem c10_restart_points_witness :
    (RESTART_THRESHOLD ≤
        (BlockBuilder.new.add_all (List.replicate 16 ([107], [118]))).count ∧
      ((BlockBuilder.new.add_all (List.replicate 16 ([107], [118]))).add
          [5] [6]).restarts =
        (BlockBuilder.new.add_all (List.replicate 16 ([107], [118]))).restarts ++
          [(BlockBuilder.new.add_all (List.replicate 16 ([107], [118]))).buf.length]) ∧
    (BlockBuilder.new.count < RESTART_THRESHOLD ∧
      (BlockBuilder.new.add [5] [6]).restarts = BlockBuilder.new.restarts) ∧
    ((BlockBuilder.new.add_all
        (List.replicate 17 ([107], [118]))).restarts.length =
      ((List.replicate 17 (([107] : List Nat), ([118] : List Nat))).length - 1) / 16 ∧
      (65 ∈ (BlockBuilder.new.add_all (List.replicate 17 ([107], [118]))).restarts →
        0 < 65)) :=
  ⟨⟨by decide,
      (c10_restart_points.1
        (BlockBuilder.new.add_all (List.replicate 16 ([107], [118])))
        [5] [6] (by decide)).1⟩,
    ⟨by decide, c10_restart_points.2.1 BlockBuilder.new [5] [6] (by decide)⟩,
    ⟨(c10_restart_points.2.2 (List.replicate 17 ([107], [118]))).1,
      fun hm => (c10_restart_points.2.2 (List.replicate 17 ([107], [118]))).2 65 hm⟩⟩

/-! ## Generic record-level reader lemmas (claims C2, C4, C5) -/

theorem take_seven (x0 x1 x2 x3 x4 x5 x6 : Nat) (tl : List Nat) :
    List.take (4 + 2 + 1) (x0 :: x1 :: x2 :: x3 :: x4 :: x5 :: x6 :: tl) =
      [x0, x1, x2, x3, x4, x5, x6] := rfl

theorem drop_seven (x0 x1 x2 x3 x4 x5 x6 : Nat) (tl : List Nat) :
    List.drop (4 + 2 + 1) (x0 :: x1 :: x2 :: x3 :: x4 :: x5 :: x6 :: tl) = tl := rfl

theorem from_u8_to_u8 (t : RecordType) :
    RecordType.from_u8 t.to_u8 = .ok t := by
  cases t <;> rfl

/-- Parsing one physical record laid out at the read cursor: the reader
returns the record exactly when the stored checksum matches the recomputed
CRC-32C over `type ‖ payload`, and fails with `InvalidRecordTypeError`
otherwise. -/
theorem read_record_at (r : WalFileReader) (c l : Nat) (t : RecordType)
    (p rest : List Nat)
    (hd : r.data.drop r.cursor = to_le32 c ++ to_le16 l ++ [t.to_u8] ++ p ++ rest)
    (hc : c < 2 ^ 32) (hl : l < 2 ^ 16) (hp : p.length = l) :
    r.read_record =
      (if crc32_digest t.to_u8 p = c then
        .ok (some ({ crc := c, len := l, ty := t, data := p },
          { r with cursor := r.cursor + (4 + 2 + 1) + l }))
      else .error .invalidRecordTypeError) := by
  have hshape : r.data.drop r.cursor =
      c % 256 :: c / 256 % 256 :: c / 65536 % 256 :: c / 16777216 % 256 ::
        l % 256 :: l / 256 % 256 :: t.to_u8 :: (p ++ rest) := by
    rw [hd]
    simp [to_le32, to_le16]
  have hlen : r.data.length - r.cursor = 7 + (p.length + rest.length) := by
    have := congrArg List.length hshape
    simp only [List.length_drop, List.length_cons, List.length_append] at this
    omega
  have hcur : r.cursor + (4 + 2 + 1) ≤ r.data.length := by omega
  unfold WalFileReader.read_record
  unfold WalFileReader.read_exact
  rw [if_pos hcur]
  simp only
  rw [hshape, take_seven]
  have hcrc : from_le32 (List.take 4
      [c % 256, c / 256 % 256, c / 65536 % 256, c / 16777216 % 256,
        l % 256, l / 256 % 256, t.to_u8]) = c := by
    show from_le32 [c % 256, c / 256 % 256, c / 65536 % 256, c / 16777216 % 256] = c
    simp only [from_le32]
    omega
  have hlenf : from_le16 (List.take 2 (List.drop 4
      [c % 256, c / 256 % 256, c / 65536 % 256, c / 16777216 % 256,
        l % 256, l / 256 % 256, t.to_u8])) = l := by
    show from_le16 [l % 256, l / 256 % 256] = l
    simp only [from_le16]
    omega
  have hty : List.getD
      [c % 256, c / 256 % 256, c / 65536 % 256, c / 16777216 % 256,
        l % 256, l / 256 % 256, t.to_u8] 6 0 = t.to_u8 := rfl
  rw [hcrc, hlenf, hty]
  have hdrop : r.data.drop (r.cursor + (4 + 2 + 1)) = p ++ rest := by
    rw [← List.drop_drop, hshape, drop_seven]
  simp only [hdrop]
  rw [if_pos (by omega)]
  have htake : (p ++ rest).take l = p := by
    rw [← hp]
    exact List.take_left p rest
  rw [htake, from_u8_to_u8]
  simp only
  by_cases hv : crc32_digest t.to_u8 p = c
  · rw [if_pos hv]
    have : Record.is_valid { crc := c, len := l, ty := t, data := p } = true := by
      simp [Record.is_valid, hv]
    rw [this]
    simp
  · rw [if_neg hv]
    have : Record.is_valid { crc := c, len := l, ty := t, data := p } = false := by
      simp [Record.is_valid, hv]
    rw [this]
    simp

/-- C4 (counterexample): a record header whose type byte is 0 is *not*
treated as block-trailer padding.  On the 7-byte file of all zeroes the
claim's behavior would skip to the next block boundary and report clean EOF
(`Ok(None)`); the code fails with `InvalidRecordTypeError`. -/
theorem c4_counterexample :
    WalFileReader.read_record ⟨[0, 0, 0, 0, 0, 0, 0], 0⟩ =
      .error .invalidRecordTypeError ∧
    WalFileReader.read_record ⟨[0, 0, 0, 0, 0, 0, 0], 0⟩ ≠ .ok none := by
  have h : WalFileReader.read_record ⟨[0, 0, 0, 0, 0, 0, 0], 0⟩ =
      .error .invalidRecordTypeError := rfl
  refine ⟨h, ?_⟩
  rw [h]
  simp

/-- C4 (amended): the reader has no padding-skip: a type byte outside
`{1, 2, 3, 4}` — including 0 — always fails the record read with
`InvalidRecordTypeError` (after the payload bytes named by the length field
have been consumed). -/
theorem c4_type_zero_rejected (a b c d e f t : Nat) (rest : List Nat)
    (ht : t ≠ 1 ∧ t ≠ 2 ∧ t ≠ 3 ∧ t ≠ 4) (hlen : e + 256 * f ≤ rest.length) :
    WalFileReader.read_record ⟨a :: b :: c :: d :: e :: f :: t :: rest, 0⟩ =
      .error .invalidRecordTypeError := by
  unfold WalFileReader.read_record WalFileReader.read_exact
  simp only [List.length_cons, List.drop_zero]
  rw [if_pos (by omega)]
  simp only [take_seven]
  have hlf : from_le16 (List.take 2 (List.drop 4 [a, b, c, d, e, f, t])) =
      e + 256 * f := rfl
  have hty : List.getD [a, b, c, d, e, f, t] 6 0 = t := rfl
  rw [hlf, hty]
  have hdrop : List.drop (0 + (4 + 2 + 1))
      (a :: b :: c :: d :: e :: f :: t :: rest) = rest := rfl
  simp only [hdrop]
  rw [if_pos (by simp only [List.length_cons]; omega)]
  unfold RecordType.from_u8
  rw [if_neg ht.1, if_neg ht.2.1, if_neg ht.2.2.1, if_neg ht.2.2.2]

/-- Witness for C4's amended theorem at the all-zero header. -/
theorem c4_type_zero_rejected_witness :
    ((0 : Nat) ≠ 1 ∧ (0 : Nat) ≠ 2 ∧ (0 : Nat) ≠ 3 ∧ (0 : Nat) ≠ 4) ∧
    0 + 256 * 0 ≤ ([] : List Nat).length ∧
    WalFileReader.read_record ⟨[0, 0, 0, 0, 0, 0, 0], 0⟩ =
      .error .invalidRecordTypeError :=
  ⟨by decide, by decide,
    c4_type_zero_rejected 0 0 0 0 0 0 0 [] (by decide) (by decide)⟩

/-- C5 (counterexample): a CRC mismatch yields the very same error value,
`WalError::InvalidRecordTypeError`, as an invalid type byte — there is no
distinct corrupt-record error kind.  `[9,0,0,0,0,0,1]` is a `Full` record
with empty payload whose stored CRC (9) does not match `crc32c([1])`;
`[0,0,0,0,0,0,9]` has the invalid type byte 9. -/
theorem c5_counterexample :
    WalFileReader.read_record ⟨[9, 0, 0, 0, 0, 0, 1], 0⟩ =
      .error .invalidRecordTypeError ∧
    WalFileReader.read_record ⟨[0, 0, 0, 0, 0, 0, 9], 0⟩ =
      .error .invalidRecordTypeError := by
  exact ⟨rfl, rfl⟩

/-- C5 (amended): the reader does recompute CRC-32C over the type byte
followed by the payload, and a mismatch makes the read fail — but with
`WalError::InvalidRecordTypeError`, the same error kind as an invalid
record type, not a distinct corrupt-record kind. -/
theorem c5_crc_mismatch_error (r : WalFileReader) (c l : Nat) (t : RecordType)
    (p rest : List Nat)
    (hd : r.data.drop r.cursor = to_le32 c ++ to_le16 l ++ [t.to_u8] ++ p ++ rest)
    (hc : c < 2 ^ 32) (hl : l < 2 ^ 16) (hp : p.length = l)
    (hcrc : crc32_digest t.to_u8 p ≠ c) :
    r.read_record = .error .invalidRecordTypeError := by
  rw [read_record_at r c l t p rest hd hc hl hp, if_neg hcrc]

/-- Witness for C5's amended theorem on the concrete corrupt record
`[9,0,0,0,0,0,1]`. -/
theorem c5_crc_mismatch_error_witness :
    (([9, 0, 0, 0, 0, 0, 1] : List Nat).drop 0 =
      to_le32 9 ++ to_le16 0 ++ [RecordType.full.to_u8] ++ [] ++ []) ∧
    (9 : Nat) < 2 ^ 32 ∧ (0 : Nat) < 2 ^ 16 ∧
    crc32_digest RecordType.full.to_u8 [] ≠ 9 ∧
    WalFileReader.read_record ⟨[9, 0, 0, 0, 0, 0, 1], 0⟩ =
      .error .invalidRecordTypeError :=
  ⟨by decide, by decide, by decide, by decide,
    c5_crc_mismatch_error ⟨[9, 0, 0, 0, 0, 0, 1], 0⟩ 9 0 .full [] []
      (by decide) (by decide) (by decide) (by decide) (by decide)⟩

/-! ## Writer-side computation lemmas (claims C2, C3, C6, C9) -/

/-- A fault-free `write_data` call whose whole payload fits in
`left_over = BLOCK_SIZE - block_offset` (with room for a header) emits one
`Full` record and advances `block_offset` by `cur_len = data.len()` only —
the seven header bytes are not counted. -/
theorem write_data_single (file : VFileW) (bo : Nat) (dat : List Nat)
    (hfa : file.faults = []) (hne : dat ≠ []) (hlo : 7 ≤ BLOCK_SIZE - bo)
    (hlen : dat.length ≤ BLOCK_SIZE - bo) :
    write_data_loop file bo dat true =
      (.ok (), ⟨⟨file.data ++ (to_le32 (crc32_digest 1 dat) ++
        to_le16 (dat.length % 65536) ++ [1] ++ dat), []⟩, bo + dat.length⟩) := by
  rw [write_data_loop]
  rw [if_neg (by unfold HEADER_SIZE; omega)]
  rw [write_data_emit]
  have hee : decide (dat.length ≤ BLOCK_SIZE - bo) = true := decide_eq_true hlen
  have hcl : min dat.length (BLOCK_SIZE - bo) = dat.length := by omega
  simp only [hee, hcl, List.take_length]
  have hcalc : RecordType.calc true true = .full := rfl
  rw [hcalc]
  unfold WalFileWriter.emit_physical_record
  unfold VFileW.append
  rw [hfa]
  simp [RecordType.to_u8]

/-- A fault-free `write_data` call arriving with fewer than `HEADER_SIZE`
bytes left in the block first appends `left_over` zero bytes and resets
`block_offset` to 0, but keeps using the stale `left_over` as the fragment
cap; when the payload also fits under that stale cap it is emitted as one
`Full` record and the final `block_offset` is `0 + data.len()`. -/
theorem write_data_padded_single (file : VFileW) (bo : Nat) (dat : List Nat)
    (hfa : file.faults = []) (hne : dat ≠ []) (hlo : BLOCK_SIZE - bo < 7)
    (hlen : dat.length ≤ BLOCK_SIZE - bo) :
    write_data_loop file bo dat true =
      (.ok (), ⟨⟨(file.data ++ List.replicate (BLOCK_SIZE - bo) 0) ++
        (to_le32 (crc32_digest 1 dat) ++ to_le16 (dat.length % 65536) ++
          [1] ++ dat), []⟩, dat.length⟩) := by
  rw [write_data_loop]
  rw [if_pos (by unfold HEADER_SIZE; omega)]
  unfold VFileW.append
  rw [hfa]
  simp only
  rw [write_data_emit]
  have hee : decide (dat.length ≤ BLOCK_SIZE - bo) = true := decide_eq_true hlen
  have hcl : min dat.length (BLOCK_SIZE - bo) = dat.length := by omega
  simp only [hee, hcl, List.take_length]
  have hcalc : RecordType.calc true true = .full := rfl
  rw [hcalc]
  unfold WalFileWriter.emit_physical_record
  unfold VFileW.append
  simp [RecordType.to_u8]

/-- A `write_data` call whose first append hits an injected fault returns
the I/O error with the file bytes unchanged. -/
theorem write_data_fault (file : VFileW) (bo : Nat) (dat : List Nat)
    (fr : List Bool) (hfa : file.faults = false :: fr)
    (hlo : 7 ≤ BLOCK_SIZE - bo) :
    write_data_loop file bo dat true =
      (.error (.ioError .other), ⟨⟨file.data, fr⟩, bo⟩) := by
  rw [write_data_loop]
  rw [if_neg (by unfold HEADER_SIZE; omega)]
  rw [write_data_emit]
  unfold WalFileWriter.emit_physical_record
  unfold VFileW.append
  rw [hfa]

/-- C3 (counterexample): writing a 10-byte payload on a fresh WAL leaves
`block_offset = 10`, not `HEADER_SIZE + 10 = 17` as the claim's
"advances block_offset by HEADER_SIZE + cur_len" would require. -/
theorem c3_counterexample :
    (WalFileWriter.write_data ⟨⟨[], []⟩, 0⟩ (List.replicate 10 0)).2.block_offset =
      10 ∧ (10 : Nat) ≠ HEADER_SIZE + 10 := by
  constructor
  · unfold WalFileWriter.write_data
    rw [write_data_single ⟨[], []⟩ 0 (List.replicate 10 0) rfl (by simp)
      (by norm_num [BLOCK_SIZE]) (by norm_num [BLOCK_SIZE])]
    simp
  · decide

/-- C3 (amended): each iteration of `write_data` computes
`left_over = BLOCK_SIZE - block_offset`; when `left_over < HEADER_SIZE` it
writes `left_over` zero bytes and resets `block_offset` to 0 but does *not*
recompute `left_over`; the fragment size is
`cur_len = min(left_over, remaining)` (no `- HEADER_SIZE`); and
`block_offset` advances by `cur_len` alone (header bytes are not counted).
Stated on the two single-fragment shapes (no padding needed / padding
needed with the payload under the stale cap). -/
theorem c3_fragmentation_arithmetic :
    (∀ (file : VFileW) (bo : Nat) (dat : List Nat), file.faults = [] →
      dat ≠ [] → HEADER_SIZE ≤ BLOCK_SIZE - bo → dat.length ≤ BLOCK_SIZE - bo →
      WalFileWriter.write_data ⟨file, bo⟩ dat =
        (.ok (), ⟨⟨file.data ++ (to_le32 (crc32_digest 1 dat) ++
          to_le16 (dat.length % 65536) ++ [1] ++ dat), []⟩, bo + dat.length⟩)) ∧
    (∀ (file : VFileW) (bo : Nat) (dat : List Nat), file.faults = [] →
      dat ≠ [] → BLOCK_SIZE - bo < HEADER_SIZE → dat.length ≤ BLOCK_SIZE - bo →
      WalFileWriter.write_data ⟨file, bo⟩ dat =
        (.ok (), ⟨⟨(file.data ++ List.replicate (BLOCK_SIZE - bo) 0) ++
          (to_le32 (crc32_digest 1 dat) ++ to_le16 (dat.length % 65536) ++
            [1] ++ dat), []⟩, dat.length⟩)) := by
  constructor
  · intro file bo dat h1 h2 h3 h4
    unfold WalFileWriter.write_data
    exact write_data_single file bo dat h1 h2 (by unfold HEADER_SIZE at h3; omega) h4
  · intro file bo dat h1 h2 h3 h4
    unfold WalFileWriter.write_data
    exact write_data_padded_single file bo dat h1 h2
      (by unfold HEADER_SIZE at h3; omega) h4

/-- Witness for C3's amended theorem: a 2-byte write at offset 0 (no
padding) and a 2-byte write at offset 32766 (2 bytes left: padding, stale
cap). -/
theorem c3_fragmentation_arithmetic_witness :
    ((⟨[], []⟩ : VFileW).faults = [] ∧ ([3, 4] : List Nat) ≠ [] ∧
      HEADER_SIZE ≤ BLOCK_SIZE - 0 ∧ ([3, 4] : List Nat).length ≤ BLOCK_SIZE - 0 ∧
      WalFileWriter.write_data ⟨⟨[], []⟩, 0⟩ [3, 4] =
        (.ok (), ⟨⟨[] ++ (to_le32 (crc32_digest 1 [3, 4]) ++
          to_le16 (([3, 4] : List Nat).length % 65536) ++ [1] ++ [3, 4]), []⟩,
          0 + ([3, 4] : List Nat).length⟩)) ∧
    ((⟨[], []⟩ : VFileW).faults = [] ∧ ([3, 4] : List Nat) ≠ [] ∧
      BLOCK_SIZE - 32766 < HEADER_SIZE ∧
      ([3, 4] : List Nat).length ≤ BLOCK_SIZE - 32766 ∧
      WalFileWriter.write_data ⟨⟨[], []⟩, 32766⟩ [3, 4] =
        (.ok (), ⟨⟨([] ++ List.replicate (BLOCK_SIZE - 32766) 0) ++
          (to_le32 (crc32_digest 1 [3, 4]) ++
            to_le16 (([3, 4] : List Nat).length % 65536) ++ [1] ++ [3, 4]), []⟩,
          ([3, 4] : List Nat).length⟩)) :=
  ⟨⟨rfl, by decide, by decide, by decide,
      c3_fragmentation_arithmetic.1 ⟨[], []⟩ 0 [3, 4] rfl (by decide)
        (by decide) (by decide)⟩,
    ⟨rfl, by decide, by decide, by decide,
      c3_fragmentation_arithmetic.2 ⟨[], []⟩ 32766 [3, 4] rfl (by decide)
        (by decide) (by decide)⟩⟩

/-- Length of the single oversized record `write_data` emits for a
32768-byte payload, generalized over the checksum value. -/
theorem oversized_record_length (c : Nat) :
    ([] ++ (to_le32 c ++ to_le16 (32768 % 65536) ++ [1] ++
      List.replicate 32768 (0 : Nat))).length = 32775 := by
  simp only [to_le32, to_le16, List.length_append, List.length_nil,
    List.length_cons, List.length_replicate]

/-- C6 (code bug): a single fault-free `write_data` of a 32768-byte payload
on a fresh WAL emits one physical record whose length field is 32768 — above
the claimed bound `BLOCK_SIZE - HEADER_SIZE = 32761` — and whose 32775 bytes
occupy file positions 0..32775, crossing the 32768-byte block boundary. -/
theorem c6_oversized_record :
    WalFileWriter.write_data ⟨⟨[], []⟩, 0⟩ (List.replicate 32768 0) =
      (.ok (), ⟨⟨[] ++ (to_le32 (crc32_digest 1 (List.replicate 32768 0)) ++
        to_le16 (32768 % 65536) ++ [1] ++ List.replicate 32768 0), []⟩,
        0 + 32768⟩) ∧
    ([] ++ (to_le32 (crc32_digest 1 (List.replicate 32768 0)) ++
      to_le16 (32768 % 65536) ++ [1] ++
      List.replicate 32768 (0 : Nat))).length = 32775 ∧
    BLOCK_SIZE - HEADER_SIZE < 32768 := by
  have h := write_data_single ⟨[], []⟩ 0 (List.replicate 32768 0) rfl
    (by
      intro hcon
      have hc := congrArg List.length hcon
      rw [List.length_replicate, List.length_nil] at hc
      exact absurd hc (by norm_num))
    (by norm_num [BLOCK_SIZE])
    (by rw [List.length_replicate]; norm_num [BLOCK_SIZE])
  simp only [List.length_replicate] at h
  refine ⟨?_,
    oversized_record_length (crc32_digest 1 (List.replicate 32768 0)),
    by norm_num [BLOCK_SIZE, HEADER_SIZE]⟩
  unfold WalFileWriter.write_data
  exact h

/-! ## Db-level theorems (claims C1, C9) -/

/-- C1 (counterexample): a previous session on an empty directory opens the
Db, successfully sets key `[97]` to `[49]` (visible to `get`), and leaves a
non-trivial `wal.log`; re-opening a Db on that `wal.log` content yields
`get [97] = Ok(None)` — nothing is replayed — while the claim promises
`Some([49])`. -/
theorem c1_counterexample :
    (((Db.create [] []).set [97] [49]).1 = .ok () ∧
      ((Db.create [] []).set [97] [49]).2.get [97] = .ok (some [49])) ∧
    (Db.create (((Db.create [] []).set [97] [49]).2.wal.file.data) []).get [97] =
      .ok none ∧
    (.ok none : Except DbError (Option (List Nat))) ≠ .ok (some [49]) := by
  have hcreate : Db.create [] [] = ⟨MemTable.new, ⟨⟨[], []⟩, 0⟩⟩ := by
    unfold Db.create WalFileWriter.new
    norm_num
  have hdata : put_var_u32_le (([97] : List Nat).length % 2 ^ 32) ++ [97] ++
      put_var_u32_le (([49] : List Nat).length % 2 ^ 32) ++ [49] =
      [1, 97, 1, 49] := by decide
  have hw : Wal.set (⟨⟨[], []⟩, 0⟩ : WalFileWriter) [97] [49] =
      (.ok (), ⟨⟨[] ++ (to_le32 (crc32_digest 1 [1, 97, 1, 49]) ++
        to_le16 (([1, 97, 1, 49] : List Nat).length % 65536) ++ [1] ++
        [1, 97, 1, 49]), []⟩, 0 + ([1, 97, 1, 49] : List Nat).length⟩) := by
    unfold Wal.set WalFileWriter.write_data
    dsimp only
    rw [hdata, write_data_single ⟨[], []⟩ 0 [1, 97, 1, 49] rfl (by decide)
      (by norm_num [BLOCK_SIZE]) (by norm_num [BLOCK_SIZE])]
  have hset : ((Db.create [] []).set [97] [49]).1 = .ok () ∧
      ((Db.create [] []).set [97] [49]).2.mem = ⟨[([97], [49])]⟩ := by
    rw [hcreate]
    unfold Db.set
    rw [hw]
    exact ⟨rfl, rfl⟩
  refine ⟨⟨hset.1, ?_⟩, rfl, by simp⟩
  unfold Db.get
  rw [hset.2]
  rfl

/-- C1 (amended): `Db::create` builds the `Vfs`, opens the WAL writer on the
existing `wal.log` (so `block_offset = len % BLOCK_SIZE` and the file bytes
are kept for appending), but performs **no replay**: the `MemTable` starts
empty, and immediately after `create` every `get` returns `Ok(None)`
regardless of what a previous session logged. -/
theorem c1_no_replay (wal_file : List Nat) (faults : List Bool)
    (key : List Nat) :
    (Db.create wal_file faults).get key = .ok none ∧
    (Db.create wal_file faults).wal.block_offset =
      wal_file.length % BLOCK_SIZE ∧
    (Db.create wal_file faults).wal.file.data = wal_file :=
  ⟨rfl, rfl, rfl⟩

/-- C9: `Db::set` appends to the WAL first; when that append fails the error
is returned before `MemTable::set` runs, so the `MemTable` — and hence every
subsequent `get` — is unchanged. -/
theorem c9_wal_write_before_visibility (db : Db) (key value : List Nat)
    (e : DbError) (h : (db.set key value).1 = .error e) :
    (db.set key value).2.mem = db.mem ∧
    ∀ k, (db.set key value).2.get k = db.get k := by
  unfold Db.set at h ⊢
  rcases hw : Wal.set db.wal key value with ⟨res, w⟩
  simp only [hw] at h ⊢
  cases res with
  | error e2 => exact ⟨rfl, fun k => rfl⟩
  | ok u => simp at h

/-- Witness for C9: with one injected append fault, `set` on a fresh Db
fails with the wrapped I/O error and `get` still returns `Ok(None)`. -/
theorem c9_wal_write_before_visibility_witness :
    ((Db.create [] [false]).set [97] [49]).1 =
      .error (.walError (.vfsError (.ioError .other))) ∧
    ((Db.create [] [false]).set [97] [49]).2.mem = (Db.create [] [false]).mem ∧
    ((Db.create [] [false]).set [97] [49]).2.get [97] =
      (Db.create [] [false]).get [97] := by
  have hcreate : Db.create [] [false] = ⟨MemTable.new, ⟨⟨[], [false]⟩, 0⟩⟩ := by
    unfold Db.create WalFileWriter.new
    norm_num
  have hw : Wal.set (⟨⟨[], [false]⟩, 0⟩ : WalFileWriter) [97] [49] =
      (.error (.vfsError (.ioError .other)), ⟨⟨[], []⟩, 0⟩) := by
    unfold Wal.set WalFileWriter.write_data
    dsimp only
    rw [write_data_fault ⟨[], [false]⟩ 0 _ [] rfl (by norm_num [BLOCK_SIZE])]
  have h : ((Db.create [] [false]).set [97] [49]).1 =
      .error (.walError (.vfsError (.ioError .other))) := by
    rw [hcreate]
    unfold Db.set
    rw [hw]
  have hm := c9_wal_write_before_visibility (Db.create [] [false]) [97] [49] _ h
  exact ⟨h, hm.1, hm.2 [97]⟩

/-! ## CRC bound and logical-read lemmas (claim C2) -/

theorem crc_table_step_lt {v : Nat} (h : v < 2 ^ 32) : crc_table_step v < 2 ^ 32 := by
  unfold crc_table_step
  have hs : v >>> 1 < 2 ^ 32 := by
    rw [Nat.shiftRight_eq_div_pow]
    omega
  split_ifs
  · exact Nat.xor_lt_two_pow (by norm_num [CASTAGNOLI]) hs
  · exact hs

theorem crc_table_step_iterate_lt :
    ∀ (n : Nat) {v : Nat}, v < 2 ^ 32 → crc_table_step^[n] v < 2 ^ 32 := by
  intro n
  induction n with
  | zero => intro v h; simpa using h
  | succ m ih =>
    intro v h
    rw [Function.iterate_succ_apply]
    exact ih (crc_table_step_lt h)

theorem crc_table_lt {i : Nat} (h : i < 2 ^ 32) : crc_table i < 2 ^ 32 :=
  crc_table_step_iterate_lt 8 h

theorem crc_update_byte_lt {value b : Nat} (hv : value < 2 ^ 32) (hb : b < 256) :
    crc_update_byte value b < 2 ^ 32 := by
  unfold crc_update_byte
  have h1 : value &&& 255 < 2 ^ 32 :=
    lt_of_le_of_lt (Nat.and_le_right) (by omega)
  have h2 : (value &&& 255) ^^^ b < 2 ^ 32 :=
    Nat.xor_lt_two_pow h1 (by omega)
  have h3 : value >>> 8 < 2 ^ 32 := by
    rw [Nat.shiftRight_eq_div_pow]
    omega
  exact Nat.xor_lt_two_pow (crc_table_lt h2) h3

theorem crc_update_lt {value : Nat} {bs : List Nat} (hv : value < 2 ^ 32)
    (hb : ∀ b ∈ bs, b < 256) : crc_update value bs < 2 ^ 32 := by
  unfold crc_update
  have hmask : (0xffffffff : Nat) < 2 ^ 32 := by norm_num
  refine Nat.xor_lt_two_pow ?_ hmask
  have : ∀ (l : List Nat) (a : Nat), a < 2 ^ 32 → (∀ b ∈ l, b < 256) →
      l.foldl crc_update_byte a < 2 ^ 32 := by
    intro l
    induction l with
    | nil => intro a ha _; simpa using ha
    | cons x xs ih =>
      intro a ha hl
      rw [List.foldl_cons]
      exact ih _ (crc_update_byte_lt ha (hl x (by simp)))
        (fun b hbm => hl b (List.mem_cons_of_mem _ hbm))
  exact this bs _ (Nat.xor_lt_two_pow hv hmask) hb

theorem crc32_digest_lt {t : Nat} {p : List Nat} (ht : t < 256)
    (hp : ∀ b ∈ p, b < 256) : crc32_digest t p < 2 ^ 32 := by
  unfold crc32_digest
  exact crc_update_lt (crc_update_lt (by norm_num) (by simpa using ht)) hp

/-- Reading one logical payload framed as a single `Full` record with a
matching checksum. -/
theorem read_data_full (r : WalFileReader) (c l : Nat) (p rest : List Nat)
    (hd : r.data.drop r.cursor = to_le32 c ++ to_le16 l ++ [1] ++ p ++ rest)
    (hc : c < 2 ^ 32) (hl : l < 2 ^ 16) (hp : p.length = l)
    (hcrc : crc32_digest 1 p = c) :
    r.read_data =
      .ok (some (p, { r with cursor := r.cursor + (4 + 2 + 1) + l })) := by
  have h := read_record_at r c l .full p rest hd hc hl hp
  simp only [RecordType.to_u8] at h
  rw [if_pos hcrc] at h
  unfold WalFileReader.read_data
  rw [h]

/-- The third read of the C2 failing trace: six zero padding bytes followed
by a real record header are misparsed as a header with type byte
`crc32c([1,9]) % 256 = 105`, which fails with `InvalidRecordTypeError`. -/
theorem read_data_junk (r : WalFileReader)
    (hd : r.data.drop r.cursor = [0, 0, 0, 0, 0, 0] ++
      (to_le32 (crc32_digest 1 [9]) ++ to_le16 1 ++ [1] ++ [9])) :
    r.read_data = .error .invalidRecordTypeError := by
  have hc3 : crc32_digest 1 [9] % 256 = 105 := by decide
  have hshape : r.data.drop r.cursor = 0 :: 0 :: 0 :: 0 :: 0 :: 0 :: 105 ::
      (crc32_digest 1 [9] / 256 % 256 :: crc32_digest 1 [9] / 65536 % 256 ::
        crc32_digest 1 [9] / 16777216 % 256 :: 1 :: 0 :: 1 :: [9]) := by
    rw [hd]
    simp [to_le32, to_le16, hc3]
  have hlen : r.data.length - r.cursor = 14 := by
    have := congrArg List.length hshape
    simp only [List.length_drop, List.length_cons, List.length_nil] at this
    omega
  unfold WalFileReader.read_data
  unfold WalFileReader.read_record
  unfold WalFileReader.read_exact
  rw [if_pos (by omega)]
  simp only
  rw [hshape, take_seven]
  have hcrc0 : from_le32 (List.take 4 [0, 0, 0, 0, 0, 0, 105]) = 0 := rfl
  have hlen0 : from_le16 (List.take 2 (List.drop 4 [0, 0, 0, 0, 0, 0, 105])) =
      0 := rfl
  have hty : List.getD [0, 0, 0, 0, 0, 0, 105] 6 0 = 105 := rfl
  rw [hcrc0, hlen0, hty]
  rw [if_pos (by omega)]
  simp only
  have hfu : RecordType.from_u8 105 = .error .invalidRecordTypeError := rfl
  rw [hfu]

/-- Length of the first emitted record's bytes, generalized over the
checksum. -/
theorem c2_first_record_length (c : Nat) :
    ([] ++ (to_le32 c ++ to_le16 32761 ++ [1] ++
      List.replicate 32761 (0 : Nat))).length = 32768 := by
  simp only [to_le32, to_le16, List.length_append, List.length_nil,
    List.length_cons, List.length_replicate]

/-- Length of the first two emitted records' bytes, generalized over the
checksums. -/
theorem c2_two_record_length (c c' : Nat) :
    (([] ++ (to_le32 c ++ to_le16 32761 ++ [1] ++
      List.replicate 32761 (0 : Nat))) ++
      (to_le32 c' ++ to_le16 1 ++ [1] ++ [7])).length = 32776 := by
  simp only [to_le32, to_le16, List.length_append, List.length_nil,
    List.length_cons, List.length_replicate]

/-- Reassociation of the written file for the first read (cursor 0). -/
theorem c2_drop_zero_assoc (a b c d e f g : List Nat) :
    ((((([] ++ (a ++ b ++ c ++ d)) ++ e) ++ f) ++ g) : List Nat).drop 0 =
      a ++ b ++ c ++ d ++ (e ++ (f ++ g)) := by
  simp [List.append_assoc]

/-- Reassociation of the written file for the second read (cursor 32768,
right after the first 7 + 32761 record bytes). -/
theorem c2_drop_block_assoc (a b c d e1 e2 e3 e4 f g : List Nat)
    (h : (([] ++ (a ++ b ++ c ++ d)) : List Nat).length = 32768) :
    ((((([] ++ (a ++ b ++ c ++ d)) ++ (e1 ++ e2 ++ e3 ++ e4)) ++ f) ++ g) :
      List Nat).drop 32768 = e1 ++ e2 ++ e3 ++ e4 ++ (f ++ g) := by
  have hsplit : (((([] ++ (a ++ b ++ c ++ d)) ++ (e1 ++ e2 ++ e3 ++ e4)) ++ f) ++ g) =
      ([] ++ (a ++ b ++ c ++ d)) ++ ((e1 ++ e2 ++ e3 ++ e4) ++ (f ++ g)) := by
    simp [List.append_assoc]
  rw [hsplit, List.drop_left' h]

/-- Reassociation of the written file for the third read (cursor 32776,
right after the first two records). -/
theorem c2_drop_two_assoc (a b c d e f g : List Nat)
    (h : ((([] ++ (a ++ b ++ c ++ d)) ++ e) : List Nat).length = 32776) :
    ((((([] ++ (a ++ b ++ c ++ d)) ++ e) ++ f) ++ g) : List Nat).drop 32776 =
      f ++ g := by
  have hsplit : ((((([] ++ (a ++ b ++ c ++ d)) ++ e) ++ f) ++ g) : List Nat) =
      (([] ++ (a ++ b ++ c ++ d)) ++ e) ++ (f ++ g) := by
    simp [List.append_assoc]
  rw [hsplit, List.drop_left' h]

/-- C2 (code bug): the WAL framing round-trip fails for the payload sizes
32761 (`BLOCK_SIZE - HEADER_SIZE`), 1, 1 — all sizes the claim includes.
The three writes succeed; the first two payloads read back; but the third
write left the block with 6 bytes of zero padding in the byte stream, which
the reader (having no padding skip) misparses as a record header whose type
byte is `crc32c([1,9]) % 256 = 105`, so the third read fails with
`InvalidRecordTypeError` instead of returning the third payload and then
`None`. -/
theorem c2_roundtrip_failure :
    (WalFileWriter.write_data ⟨⟨[], []⟩, 0⟩ (List.replicate 32761 0) =
      (.ok (), ⟨⟨[] ++ (to_le32 (crc32_digest 1 (List.replicate 32761 0)) ++
        to_le16 32761 ++ [1] ++ List.replicate 32761 0), []⟩, 32761⟩) ∧
    WalFileWriter.write_data
        ⟨⟨[] ++ (to_le32 (crc32_digest 1 (List.replicate 32761 0)) ++
          to_le16 32761 ++ [1] ++ List.replicate 32761 0), []⟩, 32761⟩ [7] =
      (.ok (), ⟨⟨([] ++ (to_le32 (crc32_digest 1 (List.replicate 32761 0)) ++
        to_le16 32761 ++ [1] ++ List.replicate 32761 0)) ++
        (to_le32 (crc32_digest 1 [7]) ++ to_le16 1 ++ [1] ++ [7]), []⟩,
        32762⟩) ∧
    WalFileWriter.write_data
        ⟨⟨([] ++ (to_le32 (crc32_digest 1 (List.replicate 32761 0)) ++
          to_le16 32761 ++ [1] ++ List.replicate 32761 0)) ++
          (to_le32 (crc32_digest 1 [7]) ++ to_le16 1 ++ [1] ++ [7]), []⟩,
          32762⟩ [9] =
      (.ok (), ⟨⟨((([] ++ (to_le32 (crc32_digest 1 (List.replicate 32761 0)) ++
        to_le16 32761 ++ [1] ++ List.replicate 32761 0)) ++
        (to_le32 (crc32_digest 1 [7]) ++ to_le16 1 ++ [1] ++ [7])) ++
        List.replicate 6 0) ++
        (to_le32 (crc32_digest 1 [9]) ++ to_le16 1 ++ [1] ++ [9]), []⟩, 1⟩)) ∧
    (WalFileReader.read_data
        ⟨((([] ++ (to_le32 (crc32_digest 1 (List.replicate 32761 0)) ++
          to_le16 32761 ++ [1] ++ List.replicate 32761 0)) ++
          (to_le32 (crc32_digest 1 [7]) ++ to_le16 1 ++ [1] ++ [7])) ++
          List.replicate 6 0) ++
          (to_le32 (crc32_digest 1 [9]) ++ to_le16 1 ++ [1] ++ [9]), 0⟩ =
      .ok (some (List.replicate 32761 0,
        ⟨((([] ++ (to_le32 (crc32_digest 1 (List.replicate 32761 0)) ++
          to_le16 32761 ++ [1] ++ List.replicate 32761 0)) ++
          (to_le32 (crc32_digest 1 [7]) ++ to_le16 1 ++ [1] ++ [7])) ++
          List.replicate 6 0) ++
          (to_le32 (crc32_digest 1 [9]) ++ to_le16 1 ++ [1] ++ [9]), 32768⟩)) ∧
    WalFileReader.read_data
        ⟨((([] ++ (to_le32 (crc32_digest 1 (List.replicate 32761 0)) ++
          to_le16 32761 ++ [1] ++ List.replicate 32761 0)) ++
          (to_le32 (crc32_digest 1 [7]) ++ to_le16 1 ++ [1] ++ [7])) ++
          List.replicate 6 0) ++
          (to_le32 (crc32_digest 1 [9]) ++ to_le16 1 ++ [1] ++ [9]), 32768⟩ =
      .ok (some ([7],
        ⟨((([] ++ (to_le32 (crc32_digest 1 (List.replicate 32761 0)) ++
          to_le16 32761 ++ [1] ++ List.replicate 32761 0)) ++
          (to_le32 (crc32_digest 1 [7]) ++ to_le16 1 ++ [1] ++ [7])) ++
          List.replicate 6 0) ++
          (to_le32 (crc32_digest 1 [9]) ++ to_le16 1 ++ [1] ++ [9]), 32776⟩)) ∧
    WalFileReader.read_data
        ⟨((([] ++ (to_le32 (crc32_digest 1 (List.replicate 32761 0)) ++
          to_le16 32761 ++ [1] ++ List.replicate 32761 0)) ++
          (to_le32 (crc32_digest 1 [7]) ++ to_le16 1 ++ [1] ++ [7])) ++
          List.replicate 6 0) ++
          (to_le32 (crc32_digest 1 [9]) ++ to_le16 1 ++ [1] ++ [9]), 32776⟩ =
      .error .invalidRecordTypeError) := by
  have hne1 : (List.replicate 32761 (0 : Nat)) ≠ [] := by
    intro hcon
    have hc := congrArg List.length hcon
    rw [List.length_replicate, List.length_nil] at hc
    exact absurd hc (by norm_num)
  have hb1 : ∀ b ∈ List.replicate 32761 (0 : Nat), b < 256 := by
    intro b hb
    rw [List.eq_of_mem_replicate hb]
    norm_num
  have h1 := write_data_single ⟨[], []⟩ 0 (List.replicate 32761 0) rfl hne1
    (by norm_num [BLOCK_SIZE])
    (by rw [List.length_replicate]; norm_num [BLOCK_SIZE])
  simp only [List.length_replicate] at h1
  rw [show (32761 : Nat) % 65536 = 32761 from by norm_num,
    show (0 : Nat) + 32761 = 32761 from rfl] at h1
  have h2 := write_data_single
    ⟨[] ++ (to_le32 (crc32_digest 1 (List.replicate 32761 0)) ++
      to_le16 32761 ++ [1] ++ List.replicate 32761 0), []⟩
    32761 [7] rfl (by simp) (by norm_num [BLOCK_SIZE]) (by norm_num [BLOCK_SIZE])
  simp only [List.length_cons, List.length_nil] at h2
  rw [show (1 : Nat) % 65536 = 1 from by norm_num,
    show (32761 : Nat) + 1 = 32762 from rfl] at h2
  have h3 := write_data_padded_single
    ⟨([] ++ (to_le32 (crc32_digest 1 (List.replicate 32761 0)) ++
      to_le16 32761 ++ [1] ++ List.replicate 32761 0)) ++
      (to_le32 (crc32_digest 1 [7]) ++ to_le16 1 ++ [1] ++ [7]), []⟩
    32762 [9] rfl (by simp) (by norm_num [BLOCK_SIZE]) (by norm_num [BLOCK_SIZE])
  simp only [List.length_cons, List.length_nil] at h3
  rw [show (1 : Nat) % 65536 = 1 from by norm_num,
    show BLOCK_SIZE - 32762 = 6 from by norm_num [BLOCK_SIZE]] at h3
  refine ⟨⟨?_, ?_, ?_⟩, ?_, ?_, ?_⟩
  · unfold WalFileWriter.write_data
    exact h1
  · unfold WalFileWriter.write_data
    exact h2
  · unfold WalFileWriter.write_data
    exact h3
  · have hr := read_data_full
      ⟨((([] ++ (to_le32 (crc32_digest 1 (List.replicate 32761 0)) ++
        to_le16 32761 ++ [1] ++ List.replicate 32761 0)) ++
        (to_le32 (crc32_digest 1 [7]) ++ to_le16 1 ++ [1] ++ [7])) ++
        List.replicate 6 0) ++
        (to_le32 (crc32_digest 1 [9]) ++ to_le16 1 ++ [1] ++ [9]), 0⟩
      (crc32_digest 1 (List.replicate 32761 0)) 32761 (List.replicate 32761 0)
      ((to_le32 (crc32_digest 1 [7]) ++ to_le16 1 ++ [1] ++ [7]) ++
        (List.replicate 6 0 ++
          (to_le32 (crc32_digest 1 [9]) ++ to_le16 1 ++ [1] ++ [9])))
      (c2_drop_zero_assoc (to_le32 (crc32_digest 1 (List.replicate 32761 0)))
        (to_le16 32761) [1] (List.replicate 32761 0)
        (to_le32 (crc32_digest 1 [7]) ++ to_le16 1 ++ [1] ++ [7])
        (List.replicate 6 0)
        (to_le32 (crc32_digest 1 [9]) ++ to_le16 1 ++ [1] ++ [9]))
      (crc32_digest_lt (by norm_num) hb1) (by norm_num)
      (by rw [List.length_replicate]) rfl
    rw [show (0 : Nat) + (4 + 2 + 1) + 32761 = 32768 from by norm_num] at hr
    exact hr
  · have hr := read_data_full
      ⟨((([] ++ (to_le32 (crc32_digest 1 (List.replicate 32761 0)) ++
        to_le16 32761 ++ [1] ++ List.replicate 32761 0)) ++
        (to_le32 (crc32_digest 1 [7]) ++ to_le16 1 ++ [1] ++ [7])) ++
        List.replicate 6 0) ++
        (to_le32 (crc32_digest 1 [9]) ++ to_le16 1 ++ [1] ++ [9]), 32768⟩
      (crc32_digest 1 [7]) 1 [7]
      (List.replicate 6 0 ++
        (to_le32 (crc32_digest 1 [9]) ++ to_le16 1 ++ [1] ++ [9]))
      (c2_drop_block_assoc (to_le32 (crc32_digest 1 (List.replicate 32761 0)))
        (to_le16 32761) [1] (List.replicate 32761 0)
        (to_le32 (crc32_digest 1 [7])) (to_le16 1) [1] [7]
        (List.replicate 6 0)
        (to_le32 (crc32_digest 1 [9]) ++ to_le16 1 ++ [1] ++ [9])
        (c2_first_record_length (crc32_digest 1 (List.replicate 32761 0))))
      (crc32_digest_lt (by norm_num) (by norm_num)) (by norm_num) rfl rfl
    rw [show (32768 : Nat) + (4 + 2 + 1) + 1 = 32776 from by norm_num] at hr
    exact hr
  · refine read_data_junk
      ⟨((([] ++ (to_le32 (crc32_digest 1 (List.replicate 32761 0)) ++
        to_le16 32761 ++ [1] ++ List.replicate 32761 0)) ++
        (to_le32 (crc32_digest 1 [7]) ++ to_le16 1 ++ [1] ++ [7])) ++
        List.replicate 6 0) ++
        (to_le32 (crc32_digest 1 [9]) ++ to_le16 1 ++ [1] ++ [9]), 32776⟩ ?_
    rw [c2_drop_two_assoc (to_le32 (crc32_digest 1 (List.replicate 32761 0)))
      (to_le16 32761) [1] (List.replicate 32761 0)
      (to_le32 (crc32_digest 1 [7]) ++ to_le16 1 ++ [1] ++ [7])
      (List.replicate 6 0)
      (to_le32 (crc32_digest 1 [9]) ++ to_le16 1 ++ [1] ++ [9])
      (c2_two_record_length (crc32_digest 1 (List.replicate 32761 0))
        (crc32_digest 1 [7]))]
    rfl
